import Mathlib

/-!
Verification development for the template-construction pipeline of gbounty
(`internal/platform/cli/request.go`) and its query-parameter extractor
(`internal/match/extractor_req_query.go`).

The two source files are embedded shallowly.  External collaborators that the
source calls but that live outside the embedded files (the `scan` package's
template factory and parameter alteration, the `request` package's option
builder, `url.Validate`, the `entrypoint` query finder, the operating-system
file reads, and the template store) are represented either as abstract fields
of an `Env` record or as definitions modelled from the specification; each
such definition says so in its doc comment.

File contents are represented as the list of text lines the Go `bufio.Scanner`
would yield; byte buffers of the extractor are represented as `List Char`.
-/

set_option maxHeartbeats 1000000

/-- Break a character list at the first occurrence of `c`: `none` when `c`
does not occur, otherwise `some (before, after)` with `c` itself removed.
This mirrors how Go's `strings.SplitN(s, sep, 2)` cuts at the first
separator. -/
def breakOn (c : Char) : List Char → Option (List Char × List Char)
  | [] => none
  | x :: xs =>
    if x = c then some ([], xs)
    else (breakOn c xs).map fun p => (x :: p.1, p.2)

/-- Split a character list on every occurrence of `c` (like
`strings.Split`): the result is the list of separator-free segments, and is
never empty. -/
def splitChar (c : Char) : List Char → List (List Char)
  | [] => [[]]
  | x :: xs =>
    if x = c then [] :: splitChar c xs
    else
      match splitChar c xs with
      | [] => [[x]]
      | g :: gs => (x :: g) :: gs

/-- Whitespace-trim both ends of a string, mirroring Go's
`strings.TrimSpace` on ASCII input. -/
def trimChars (s : String) : String :=
  ⟨((s.toList.dropWhile Char.isWhitespace).reverse.dropWhile Char.isWhitespace).reverse⟩

/-- Partition `l` into consecutive chunks of size `n` (the last chunk may be
smaller).  Only used with `0 < n`. -/
def chunksOf (n : Nat) (l : List α) : List (List α) :=
  (List.range ((l.length + n - 1) / n)).map fun i => (l.drop (i * n)).take n

/-- `profile.InsertionPointType`, restricted to the two sub-kinds the query
extractor distinguishes (`profile.ParamURLName` / `profile.ParamURLValue`). -/
inductive InsertionPointType where
  | paramURLName
  | paramURLValue
deriving DecidableEq, Repr

/-- The request representation consumed read-only by this core
(`request.Request`), restricted to the fields the specification requires it
to expose: method, target URL, headers and body bytes. -/
structure Request where
  method : String
  url : String
  headers : List (String × String)
  body : String
deriving DecidableEq, Repr

/-- A `request.Option`: one of the three option constructors the pipeline
uses (`request.WithMethod`, `request.WithData`, `request.WithHeader`). -/
inductive ReqOption where
  | withMethod (m : String)
  | withData (d : String)
  | withHeader (k v : String)
deriving DecidableEq, Repr

/-- Modelled from the spec: the collaborator default request for a target
URL, used by the Request Options Builder before overrides are applied. -/
def defaultRequest (u : String) : Request :=
  { method := "GET", url := u, headers := [], body := "" }

/-- Apply one `request.Option` to a request: a method override replaces the
method, a data override replaces the body bytes, a header override is
appended to the headers. -/
def applyReqOption (r : Request) : ReqOption → Request
  | .withMethod m => { r with method := m }
  | .withData d => { r with body := d }
  | .withHeader k v => { r with headers := r.headers ++ [(k, v)] }

/-- Modelled from the spec: `request.WithOptions(url, options...)` — the
Request Options Builder constructs a request for the (already validated)
URL with the configured overrides applied in order. -/
def WithOptions (u : String) (opts : List ReqOption) : Request :=
  opts.foldl applyReqOption (defaultRequest u)

/-- A scan template (`scan.Template`): an integer index plus the owned
request.  The optional raw-response reference is always absent in this
pipeline (the source passes `nil`) and is therefore omitted. -/
structure Template where
  idx : Nat
  req : Request
deriving DecidableEq, Repr

/-- Modelled from the spec: `scan.NewTemplate(ctx, idx, req, nil)` creates a
template from an index and a request (with no response data). -/
def NewTemplate (idx : Nat) (req : Request) : Template :=
  { idx := idx, req := req }

/-- `scan.ParamsCfg`: the parameter configuration — parameter list, batch
size, HTTP method override (upper-cased) and encoding selector
(lower-cased).  Zero values mirror Go's zero-valued struct. -/
structure ParamsCfg where
  Params : List String := []
  Size : Nat := 0
  Method : String := ""
  Encoding : String := ""
deriving DecidableEq, Repr

/-- The error a failed file open/read carries: whether it is an
`*os.PathError` (Go's `errors.As` test in `updateConfigWithURLS`), and the
rendered message of the underlying failure. -/
structure OpenErr where
  isPathError : Bool
  msg : String
deriving DecidableEq, Repr

/-- The errors the pipeline can return: the two marker errors of the source
(`ErrProcessRequestFile`, `ErrProcessUrlsFile`) wrapped together with a path
and an underlying message, the `ErrInvalidHeader` marker wrapped with the
offending header string, and bare external errors returned unwrapped (URL
validation failures in `createFromConfig`, `scanner.Err()` in
`updateConfigWithURLS`). -/
inductive GErr where
  | processRequestFile (path : String) (msg : String)
  | processUrlsFile (path : String) (msg : String)
  | invalidHeader (header : String)
  | external (msg : String)
deriving DecidableEq, Repr

/-- The CLI `Config`, restricted to the fields `request.go` reads. -/
structure Config where
  RequestsFile : String := ""
  RawRequests : List String := []
  UrlsFile : String := ""
  OutPath : String := ""
  ParamsFile : String := ""
  ParamsSplit : Nat := 0
  ParamsMethod : String := ""
  ParamsEncoding : String := ""
  Method : String := ""
  Data : List String := []
  Headers : List String := []
  URLS : List String := []
deriving DecidableEq, Repr

/-- The external collaborators of the pipeline, as abstract operations:
`readFile` is `os.ReadFile` (file contents as scanner lines), `openFile` is
`os.Open` followed by the line scanner (lines read, plus an optional
`scanner.Err()` message), `validate` is `url.Validate` (`none` = valid,
`some msg` = the validation error), `storeErr` is the template store's
`StoreTemplate` result, `templatesFromZipBytes` is
`scan.TemplatesFromZipBytes`, `parseRaw` is the raw-request parser used by
`scan.TemplateFromRawBytes`, and `encode` is the parameter-batch encoder of
the request-building collaborator. -/
structure Env where
  readFile : String → Except String (List String)
  openFile : String → Except OpenErr (List String × Option String)
  validate : String → Option String
  storeErr : Template → Option String
  templatesFromZipBytes : ParamsCfg → List String → Except String (List Template)
  parseRaw : List String → Except String Request
  encode : String → List String → String

/-- The observable outcome of one pipeline run: the templates successfully
persisted through the store, in store-call order, and the error returned to
the caller (`none` = success). -/
structure RunOut where
  stored : List Template
  err : Option GErr
deriving DecidableEq, Repr

/-- Modelled from the spec: the per-batch request rebuild of Parameter
Alteration — a copy of the input request whose body is rebuilt to contain
exactly the batch's parameters, encoded per the configured encoding, using
the configured HTTP method if set. -/
def rebuildReq (env : Env) (cfg : ParamsCfg) (r : Request) (batch : List String) : Request :=
  { r with
    method := if cfg.Method.length = 0 then r.method else cfg.Method
    body := env.encode cfg.Encoding batch }

/-- Modelled from the spec: the batch loop of Parameter Alteration — one new
template per batch, in batch order, indices assigned sequentially from the
given starting index. -/
def alterBatches (env : Env) (cfg : ParamsCfg) (r : Request) : Nat → List (List String) → List Template
  | _, [] => []
  | n, b :: bs => { idx := n, req := rebuildReq env cfg r b } :: alterBatches env cfg r (n + 1) bs

/-- Modelled from the spec: `scan.ParamsCfg.Alter` (the code lives in the
`scan` package, outside the embedded files).  With no parameters configured
it returns `[t]`; otherwise it partitions the parameter list into
consecutive batches of the configured size (a size of 0 means no splitting:
one batch) and produces one template per batch, indices assigned
sequentially starting from the input template's index. -/
def ParamsCfg.Alter (env : Env) (cfg : ParamsCfg) (t : Template) : List Template :=
  if cfg.Params.isEmpty then [t]
  else
    let batches := if cfg.Size = 0 then [cfg.Params] else chunksOf cfg.Size cfg.Params
    alterBatches env cfg t.req t.idx batches

/-- Modelled from the spec: `scan.TemplateFromRawBytes(ctx, idx, pCfg, b)` —
raw mode of the Template Factory: the byte payload is parsed into one base
template whose index is supplied by the caller, then passed through
Parameter Alteration. -/
def TemplateFromRawBytes (env : Env) (idx : Nat) (pCfg : ParamsCfg) (b : List String) :
    Except String (List Template) :=
  (env.parseRaw b).map fun r => pCfg.Alter env (NewTemplate idx r)

/-- Go's `strings.SplitN(s, ":", 2)`: at most two parts, cut at the first
colon; a string without a colon yields a single-element list. -/
def splitN2Colon (s : String) : List String :=
  match breakOn ':' s.toList with
  | none => [s]
  | some (a, b) => [⟨a⟩, ⟨b⟩]

/-- The header-override loop of `createFromConfig`: each header string must
split into exactly two colon-separated parts; both parts are
whitespace-trimmed into a `WithHeader` option.  The first malformed header
aborts with that header (wrapped as `ErrInvalidHeader` by the caller). -/
def buildHeaderOptions : List String → Except String (List ReqOption)
  | [] => .ok []
  | h :: rest =>
    match splitN2Colon h with
    | [k, v] => (buildHeaderOptions rest).map fun opts => ReqOption.withHeader (trimChars k) (trimChars v) :: opts
    | _ => .error h

/-- The store loop shared by `createFromRawRequestFiles` and
`createFromConfig`: increments the running template index, stores each
template, and aborts on the first store failure, wrapping it as
`ErrProcessRequestFile` with the given tag (file path resp. URL).  Returns
the new running index, the accumulated store trace, and the error if any. -/
def storeSeq (env : Env) (tag : String) : List Template → Nat → List Template → Nat × List Template × Option GErr
  | [], idx, acc => (idx, acc, none)
  | t :: rest, idx, acc =>
    match env.storeErr t with
    | some m => (idx + 1, acc, some (.processRequestFile tag m))
    | none => storeSeq env tag rest (idx + 1) (acc ++ [t])

/-- The per-URL loop of `createFromConfig`: each URL is validated
(`url.Validate`; a failure is returned bare and aborts), the Request Options
Builder constructs the request, `scan.NewTemplate` wraps it at the running
index, Parameter Alteration multiplies it, and each resulting template is
stored (incrementing the running index first, as the source does). -/
def urlLoop (env : Env) (opts : List ReqOption) (pCfg : ParamsCfg) : List String → Nat → List Template → RunOut
  | [], _, acc => { stored := acc, err := none }
  | u :: rest, idx, acc =>
    match env.validate u with
    | some m => { stored := acc, err := some (.external m) }
    | none =>
      match storeSeq env u (pCfg.Alter env (NewTemplate idx (WithOptions u opts))) idx acc with
      | (idx2, acc2, none) => urlLoop env opts pCfg rest idx2 acc2
      | (_, acc2, some e) => { stored := acc2, err := some e }

/-- `createFromConfig`: builds the option list (method override, data
fragments joined with an ampersand, then the header overrides — a malformed
header aborts with `ErrInvalidHeader`), then runs the URL loop over
`cfg.URLS` starting at template index 0 with nothing stored. -/
def createFromConfig (env : Env) (cfg : Config) (pCfg : ParamsCfg) : RunOut :=
  let mopts := if 0 < cfg.Method.length then [ReqOption.withMethod cfg.Method] else []
  let dopts := if 0 < cfg.Data.length then [ReqOption.withData (String.intercalate "&" cfg.Data)] else []
  match buildHeaderOptions cfg.Headers with
  | .error h => { stored := [], err := some (.invalidHeader h) }
  | .ok hopts => urlLoop env (mopts ++ dopts ++ hopts) pCfg cfg.URLS 0 []

/-- The per-file loop of `createFromRawRequestFiles`: read each file, build
its templates with `scan.TemplateFromRawBytes` at the running index, store
them (the running index advances by one per stored template), and continue
with the next file; read, parse and store failures abort wrapped as
`ErrProcessRequestFile` with the file path. -/
def rawFilesLoop (env : Env) (pCfg : ParamsCfg) : List String → Nat → List Template → RunOut
  | [], _, acc => { stored := acc, err := none }
  | p :: rest, idx, acc =>
    match env.readFile p with
    | .error m => { stored := acc, err := some (.processRequestFile p m) }
    | .ok bs =>
      match TemplateFromRawBytes env idx pCfg bs with
      | .error m => { stored := acc, err := some (.processRequestFile p m) }
      | .ok tpls =>
        match storeSeq env p tpls idx acc with
        | (idx2, acc2, none) => rawFilesLoop env pCfg rest idx2 acc2
        | (_, acc2, some e) => { stored := acc2, err := some e }

/-- `createFromRawRequestFiles`: the raw-request-file source, starting at
template index 0 with nothing stored. -/
def createFromRawRequestFiles (env : Env) (paths : List String) (pCfg : ParamsCfg) : RunOut :=
  rawFilesLoop env pCfg paths 0 []

/-- The store loop of `createFromRequestsFile` (no running index is kept by
the source here; store failures are wrapped as `ErrProcessRequestFile` with
the file path). -/
def storePlain (env : Env) (path : String) : List Template → List Template → RunOut
  | [], acc => { stored := acc, err := none }
  | t :: rest, acc =>
    match env.storeErr t with
    | some m => { stored := acc, err := some (.processRequestFile path m) }
    | none => storePlain env path rest (acc ++ [t])

/-- `createFromRequestsFile`: read the captured-requests file, build its
templates with `scan.TemplatesFromZipBytes`, and store each one; read,
parse and store failures are wrapped as `ErrProcessRequestFile` with the
file path. -/
def createFromRequestsFile (env : Env) (path : String) (pCfg : ParamsCfg) : RunOut :=
  match env.readFile path with
  | .error m => { stored := [], err := some (.processRequestFile path m) }
  | .ok bs =>
    match env.templatesFromZipBytes pCfg bs with
    | .error m => { stored := [], err := some (.processRequestFile path m) }
    | .ok tpls => storePlain env path tpls []

/-- `updateConfigWithURLS`: open the URLs file — on failure, wrap
`ErrProcessUrlsFile` with `cfg.UrlsFile` and the underlying error when the
failure is an `*os.PathError`, and (as the source is written) with
`cfg.OutPath` otherwise; on success, validate each line with
`url.Validate`, skip invalid lines, append the valid ones to `cfg.URLS` in
order, and finally return `scanner.Err()` bare if the scanner failed. -/
def updateConfigWithURLS (env : Env) (cfg : Config) : Except GErr Config :=
  match env.openFile cfg.UrlsFile with
  | .error e =>
    if e.isPathError then .error (.processUrlsFile cfg.UrlsFile e.msg)
    else .error (.processUrlsFile cfg.OutPath e.msg)
  | .ok (ls, scanErr) =>
    match scanErr with
    | some m => .error (.external m)
    | none => .ok { cfg with URLS := cfg.URLS ++ ls.filter fun l => (env.validate l).isNone }

/-- `createTemplates`: source selection in the source's order — a
captured-requests file first, then raw-request files, then (when a URLs
file is configured) the URL-file merge followed by the inline-config path,
and the inline-config path directly otherwise. -/
def createTemplates (env : Env) (cfg : Config) (pCfg : ParamsCfg) : RunOut :=
  if 0 < cfg.RequestsFile.length then createFromRequestsFile env cfg.RequestsFile pCfg
  else if 0 < cfg.RawRequests.length then createFromRawRequestFiles env cfg.RawRequests pCfg
  else if 0 < cfg.UrlsFile.length then
    match updateConfigWithURLS env cfg with
    | .error e => { stored := [], err := some e }
    | .ok cfg2 => createFromConfig env cfg2 pCfg
  else createFromConfig env cfg pCfg

/-- The scanner loop of `readParamsFile`: append the whitespace-trimmed text
of each line, in order. -/
def paramsLoop : List String → List String → List String
  | acc, [] => acc
  | acc, l :: rest => paramsLoop (acc ++ [trimChars l]) rest

/-- `readParamsFile`: read the parameter file (a read failure is returned to
the caller unwrapped) and collect the whitespace-trimmed lines. -/
def readParamsFile (env : Env) (pathToFile : String) : Except String (List String) :=
  match env.readFile pathToFile with
  | .error e => .error e
  | .ok ls => .ok (paramsLoop [] ls)

/-- `PrepareTemplates`: when a parameter file is configured and readable,
its parameters (with the configured batch size, upper-cased method and
lower-cased encoding) form the parameter configuration; when the read
fails, the failure is only logged and the zero-valued configuration is
used.  Either way, `createTemplates` runs. -/
def PrepareTemplates (env : Env) (cfg : Config) : RunOut :=
  let pCfg : ParamsCfg :=
    if 0 < cfg.ParamsFile.length then
      match readParamsFile env cfg.ParamsFile with
      | .ok params =>
        { Params := params
          Size := cfg.ParamsSplit
          Method := cfg.ParamsMethod.toUpper
          Encoding := cfg.ParamsEncoding.toLower }
      | .error _ => {}
    else {}
  createTemplates env cfg pCfg

/-- One query insertion point (`entrypoint.Query`): its sub-kind and the
byte payload currently occupying the location (`Value()`). -/
structure QueryEntry where
  ipt : InsertionPointType
  value : String
deriving DecidableEq, Repr

/-- The query-string portion of a URL: everything after the first question
mark, empty when there is none. -/
def queryOf (u : String) : String :=
  match breakOn '?' u.toList with
  | none => ""
  | some (_, rest) => ⟨rest⟩

/-- The (name, value) pairs of a query string, in order: segments are
separated by ampersands, each segment is cut at its first equals sign (a
segment without one yields an empty value).  An empty query string has no
pairs. -/
def queryPairs (q : String) : List (String × String) :=
  if q.length = 0 then []
  else
    (splitChar '&' q.toList).map fun seg =>
      match breakOn '=' seg with
      | none => (⟨seg⟩, "")
      | some (n, v) => (⟨n⟩, ⟨v⟩)

/-- Modelled from the spec: `entrypoint.NewQueryFinder().Find(req)` (the
finder lives in the `entrypoint` package, outside the embedded files) —
the ordered sequence of query insertion points of a request: every
query-string key and every query-string value of the request's URL, in URL
parameter order; each key yields one name insertion point and each value
one value insertion point. -/
def queryFinderFind (r : Request) : List QueryEntry :=
  (queryPairs (queryOf r.url)).flatMap fun p =>
    [{ ipt := .paramURLName, value := p.1 }, { ipt := .paramURLValue, value := p.2 }]

/-- `reqQueryBytes`: run the query finder over the request and append, in
finder order, the payload bytes of every insertion point whose sub-kind
matches the requested one. -/
def reqQueryBytes (r : Request) (ipt : InsertionPointType) : List Char :=
  (queryFinderFind r).foldl (fun b e => if e.ipt = ipt then b ++ e.value.toList else b) []

/-- `reqQueryNameBytes`: the name-only query extraction. -/
def reqQueryNameBytes (r : Request) : List Char :=
  reqQueryBytes r .paramURLName

/-- `reqQueryValueBytes`: the value-only query extraction. -/
def reqQueryValueBytes (r : Request) : List Char :=
  reqQueryBytes r .paramURLValue

/-- A concrete request whose query string is `a=1&b=2&a=3`, as in the
specification's extractor example. -/
def reqEx : Request :=
  { method := "GET", url := "http://example.com/path?a=1&b=2&a=3", headers := [], body := "" }

/-- A concrete request with no query string at all. -/
def reqNoQuery : Request :=
  { method := "GET", url := "http://example.com/path", headers := [], body := "" }

/-- A concrete collaborator environment used to instantiate the theorems on
closed inputs: two raw-request files and a parameter file exist, a URLs file
holds one valid and one invalid line, the URL `bad` fails validation, and
the store always succeeds. -/
def demoEnv : Env where
  readFile := fun p =>
    if p = "params.txt" then .ok ["a", "", "  b  ", "a"]
    else if p = "raw1.txt" then .ok ["GET / HTTP/1.1"]
    else if p = "raw2.txt" then .ok ["POST / HTTP/1.1"]
    else .error "no such file"
  openFile := fun p =>
    if p = "urls.txt" then .ok (["http://good", "bad"], none)
    else .error { isPathError := true, msg := "no such file" }
  validate := fun u => if u = "bad" ∨ u = "bad2" then some "invalid url" else none
  storeErr := fun _ => none
  templatesFromZipBytes := fun _ _ => .ok []
  parseRaw := fun _ => .ok { method := "GET", url := "http://raw", headers := [], body := "" }
  encode := fun _ ps => String.intercalate "&" ps

/-- A configuration with every source configured at once. -/
def cfgAll : Config :=
  { RequestsFile := "reqs.zip", RawRequests := ["raw1.txt"], UrlsFile := "urls.txt"
    URLS := ["http://u"] }

/-- The same configuration without the captured-requests file. -/
def cfgNoZip : Config := { cfgAll with RequestsFile := "" }

/-- The same configuration with only the URLs file and the inline list. -/
def cfgUrlsOnly : Config := { cfgNoZip with RawRequests := [] }

/-- The same configuration with only the inline URL list. -/
def cfgInlineOnly : Config := { cfgUrlsOnly with UrlsFile := "" }

/-- An inline configuration with two valid URLs. -/
def cfgTwoUrls : Config := { URLS := ["http://a", "http://b"] }

/-- An inline configuration whose URL list ends in an invalid URL. -/
def cfgTwoThenBad : Config := { URLS := ["http://a", "http://b", "bad"] }

/-- An inline configuration with a colon-free header override. -/
def cfgBadHeader : Config := { Headers := ["X-Test"], URLS := ["http://a"] }

/-- A configuration with a parameter file that cannot be read. -/
def cfgBadParams : Config := { ParamsFile := "missing.txt", URLS := ["http://a"] }

/-- The configuration of the URLs-file open-failure scenario: the URLs file
and the report output path differ. -/
def cfgUrlsErr : Config := { UrlsFile := "urls.txt", OutPath := "out.json" }

/-- An environment whose URLs-file open fails with an `*os.PathError`. -/
def envPathErr : Env :=
  { demoEnv with openFile := fun _ => .error { isPathError := true, msg := "no such file or directory" } }

/-- An environment whose URLs-file open fails with an error that is not an
`*os.PathError`. -/
def envOtherErr : Env :=
  { demoEnv with openFile := fun _ => .error { isPathError := false, msg := "token expired" } }

theorem paramsLoop_eq (ls : List String) : ∀ acc, paramsLoop acc ls = acc ++ ls.map trimChars := by
  induction ls with
  | nil => intro acc; simp [paramsLoop]
  | cons l rest ih => intro acc; simp [paramsLoop, ih]

theorem storeSeq_ok (env : Env) (tag : String) (hs : ∀ t, env.storeErr t = none) :
    ∀ (ts acc : List Template) (idx : Nat),
      storeSeq env tag ts idx acc = (idx + ts.length, acc ++ ts, none) := by
  intro ts
  induction ts with
  | nil => intro acc idx; simp [storeSeq]
  | cons t rest ih =>
    intro acc idx
    simp [storeSeq, hs t, ih, List.append_assoc]
    omega

theorem alterBatches_length (env : Env) (cfg : ParamsCfg) (r : Request) :
    ∀ (bs : List (List String)) (n : Nat), (alterBatches env cfg r n bs).length = bs.length := by
  intro bs
  induction bs with
  | nil => intro n; simp [alterBatches]
  | cons b rest ih => intro n; simp [alterBatches, ih]

theorem alterBatches_idx (env : Env) (cfg : ParamsCfg) (r : Request) :
    ∀ (bs : List (List String)) (n : Nat),
      (alterBatches env cfg r n bs).map Template.idx = (List.range bs.length).map (n + ·) := by
  intro bs
  induction bs with
  | nil => intro n; simp [alterBatches]
  | cons b rest ih =>
    intro n
    simp [alterBatches, ih, List.range_succ_eq_map, List.map_map]
    intro a _
    omega

theorem alter_idx (env : Env) (cfg : ParamsCfg) (t : Template) :
    (cfg.Alter env t).map Template.idx =
      (List.range (cfg.Alter env t).length).map (t.idx + ·) := by
  unfold ParamsCfg.Alter
  by_cases h : cfg.Params.isEmpty
  · simp [h, List.range_succ]
  · simp [h, alterBatches_idx, alterBatches_length]

theorem breakOn_eq_none (c : Char) : ∀ l : List Char, breakOn c l = none ↔ c ∉ l := by
  intro l
  induction l with
  | nil => simp [breakOn]
  | cons x xs ih =>
    by_cases h : x = c
    · subst h
      simp [breakOn]
    · simp [breakOn, h, ih, Ne.symm h]

theorem buildHeaderOptions_err :
    ∀ hs : List String, (∃ h ∈ hs, ':' ∉ h.toList) →
      ∃ h2, buildHeaderOptions hs = .error h2 ∧ ':' ∉ h2.toList := by
  intro hs
  induction hs with
  | nil => rintro ⟨h0, hmem, _⟩; exact absurd hmem (List.not_mem_nil h0)
  | cons h rest ih =>
    rintro ⟨h0, hmem, hnc⟩
    cases hbr : breakOn ':' h.toList with
    | none =>
      refine ⟨h, ?_, (breakOn_eq_none ':' h.toList).mp hbr⟩
      simp only [buildHeaderOptions, splitN2Colon, hbr]
    | some p =>
      obtain ⟨a, b⟩ := p
      have hcolon : ':' ∈ h.toList := by
        by_contra hc
        rw [(breakOn_eq_none ':' h.toList).mpr hc] at hbr
        exact Option.noConfusion hbr
      have hm : h0 ∈ rest := by
        rcases List.mem_cons.mp hmem with he | hr
        · exact absurd (he ▸ hcolon) hnc
        · exact hr
      obtain ⟨h2, herr, hnc2⟩ := ih ⟨h0, hm, hnc⟩
      refine ⟨h2, ?_, hnc2⟩
      simp only [buildHeaderOptions, splitN2Colon, hbr, herr]
      rfl

theorem urlLoop_empty_params (env : Env) (opts : List ReqOption) (pCfg : ParamsCfg)
    (hp : pCfg.Params = []) (hs : ∀ t, env.storeErr t = none) :
    ∀ (urls : List String) (idx : Nat) (acc : List Template),
      (∀ u ∈ urls, env.validate u = none) →
      (urlLoop env opts pCfg urls idx acc).stored.length = acc.length + urls.length ∧
      (urlLoop env opts pCfg urls idx acc).err = none := by
  intro urls
  induction urls with
  | nil => intro idx acc _; simp [urlLoop]
  | cons u rest ih =>
    intro idx acc hv
    have hvu : env.validate u = none := hv u (List.mem_cons_self u rest)
    have halt : pCfg.Alter env (NewTemplate idx (WithOptions u opts)) =
        [NewTemplate idx (WithOptions u opts)] := by
      simp [ParamsCfg.Alter, hp]
    have hrec := ih (idx + 1) (acc ++ [NewTemplate idx (WithOptions u opts)])
      (fun x hx => hv x (List.mem_cons_of_mem u hx))
    rw [urlLoop, hvu, halt, storeSeq_ok env u hs]
    exact ⟨hrec.1.trans
      (by simp only [List.length_append, List.length_cons, List.length_nil]; omega), hrec.2⟩

theorem urlLoop_invalid_tail (env : Env) (opts : List ReqOption) (pCfg : ParamsCfg)
    (u m : String) (vs : List String)
    (hbad : env.validate u = some m) (hs : ∀ t, env.storeErr t = none) :
    ∀ (us : List String) (idx : Nat) (acc : List Template),
      (∀ x ∈ us, env.validate x = none) →
      urlLoop env opts pCfg (us ++ u :: vs) idx acc =
        { stored := (urlLoop env opts pCfg us idx acc).stored, err := some (.external m) } := by
  intro us
  induction us with
  | nil => intro idx acc _; simp [urlLoop, hbad]
  | cons x rest ih =>
    intro idx acc hv
    have hvx : env.validate x = none := hv x (List.mem_cons_self x rest)
    rw [List.cons_append, urlLoop, hvx, storeSeq_ok env x hs, urlLoop, hvx, storeSeq_ok env x hs]
    exact ih _ _ (fun y hy => hv y (List.mem_cons_of_mem x hy))

theorem rawFilesLoop_ok (env : Env) (pCfg : ParamsCfg) (hs : ∀ t, env.storeErr t = none) :
    ∀ (paths : List String) (acc : List Template),
      (∀ p ∈ paths, ∃ bs, env.readFile p = .ok bs ∧ ∃ r, env.parseRaw bs = .ok r) →
      acc.map Template.idx = List.range acc.length →
      (rawFilesLoop env pCfg paths acc.length acc).err = none ∧
      (rawFilesLoop env pCfg paths acc.length acc).stored.map Template.idx =
        List.range (rawFilesLoop env pCfg paths acc.length acc).stored.length := by
  intro paths
  induction paths with
  | nil => intro acc _ hacc; exact ⟨rfl, hacc⟩
  | cons p rest ih =>
    intro acc hio hacc
    obtain ⟨bs, hbs, r, hr⟩ := hio p (List.mem_cons_self p rest)
    set tpls := pCfg.Alter env (NewTemplate acc.length r) with htpls
    have hparse : TemplateFromRawBytes env acc.length pCfg bs = .ok tpls := by
      unfold TemplateFromRawBytes
      rw [hr]
      rfl
    simp only [rawFilesLoop, hbs, hparse, storeSeq_ok env p hs]
    have hlen : acc.length + tpls.length = (acc ++ tpls).length := by simp
    have hinv : (acc ++ tpls).map Template.idx = List.range (acc ++ tpls).length := by
      have hti : tpls.map Template.idx =
          (List.range tpls.length).map (acc.length + ·) := alter_idx env pCfg _
      simp only [List.map_append, hacc, hti, List.length_append, List.range_add]
    rw [hlen]
    exact ih (acc ++ tpls) (fun q hq => hio q (List.mem_cons_of_mem p hq)) hinv

theorem foldl_extract (ipt : InsertionPointType) :
    ∀ (es : List QueryEntry) (b : List Char),
      es.foldl (fun b e => if e.ipt = ipt then b ++ e.value.toList else b) b =
        b ++ (es.filter fun e => decide (e.ipt = ipt)).flatMap fun e => e.value.toList := by
  intro es
  induction es with
  | nil => intro b; simp
  | cons e rest ih =>
    intro b
    by_cases h : e.ipt = ipt
    · rw [List.foldl_cons, if_pos h, ih]
      simp [List.filter_cons, h, List.append_assoc]
    · rw [List.foldl_cons, if_neg h, ih]
      simp [List.filter_cons, h]

/-- C1: template source selection follows a fixed priority — a configured
captured-requests file drives the run; otherwise configured raw-request
file paths do; otherwise a configured URLs file is merged into the
inline-config URL list and the inline-config path runs; otherwise the
inline-config path runs directly.  For every configuration, exactly the
first matching source drives the run. -/
theorem createTemplates_source_priority (env : Env) (cfg : Config) (pCfg : ParamsCfg) :
    (0 < cfg.RequestsFile.length →
      createTemplates env cfg pCfg = createFromRequestsFile env cfg.RequestsFile pCfg) ∧
    (cfg.RequestsFile.length = 0 → 0 < cfg.RawRequests.length →
      createTemplates env cfg pCfg = createFromRawRequestFiles env cfg.RawRequests pCfg) ∧
    (cfg.RequestsFile.length = 0 → cfg.RawRequests.length = 0 → 0 < cfg.UrlsFile.length →
      createTemplates env cfg pCfg =
        (match updateConfigWithURLS env cfg with
          | .error e => { stored := [], err := some e }
          | .ok cfg2 => createFromConfig env cfg2 pCfg)) ∧
    (cfg.RequestsFile.length = 0 → cfg.RawRequests.length = 0 → cfg.UrlsFile.length = 0 →
      createTemplates env cfg pCfg = createFromConfig env cfg pCfg) := by
  refine ⟨fun h1 => ?_, fun h1 h2 => ?_, fun h1 h2 h3 => ?_, fun h1 h2 h3 => ?_⟩ <;>
    simp_all [createTemplates]

/-- Witness for C1: on concrete configurations in which one, two, three or
all of the sources are configured, the highest-priority configured source
is always the one that drives the run. -/
theorem createTemplates_source_priority_witness :
    createTemplates demoEnv cfgAll {} = createFromRequestsFile demoEnv "reqs.zip" {} ∧
    createTemplates demoEnv cfgNoZip {} = createFromRawRequestFiles demoEnv ["raw1.txt"] {} ∧
    createTemplates demoEnv cfgUrlsOnly {} =
      (match updateConfigWithURLS demoEnv cfgUrlsOnly with
        | .error e => { stored := [], err := some e }
        | .ok cfg2 => createFromConfig demoEnv cfg2 {}) ∧
    createTemplates demoEnv cfgInlineOnly {} = createFromConfig demoEnv cfgInlineOnly {} :=
  ⟨(createTemplates_source_priority demoEnv cfgAll {}).1 (by decide),
   (createTemplates_source_priority demoEnv cfgNoZip {}).2.1 (by decide) (by decide),
   (createTemplates_source_priority demoEnv cfgUrlsOnly {}).2.2.1 (by decide) (by decide) (by decide),
   (createTemplates_source_priority demoEnv cfgInlineOnly {}).2.2.2 (by decide) (by decide) (by decide)⟩

/-- C2: with an empty parameter list the Alteration operation is the
identity — `alter(t) = [t]` for every template `t` — and consequently, in
the inline-config path with no parameter splitting configured, each valid
URL produces exactly one persisted template. -/
theorem alter_empty_identity_one_template_per_url :
    (∀ (env : Env) (cfg : ParamsCfg) (t : Template),
      cfg.Params = [] → cfg.Alter env t = [t]) ∧
    (∀ (env : Env) (cfg : Config) (pCfg : ParamsCfg) (opts : List ReqOption),
      pCfg.Params = [] →
      buildHeaderOptions cfg.Headers = .ok opts →
      (∀ u ∈ cfg.URLS, env.validate u = none) →
      (∀ t, env.storeErr t = none) →
      (createFromConfig env cfg pCfg).stored.length = cfg.URLS.length ∧
      (createFromConfig env cfg pCfg).err = none) := by
  constructor
  · intro env cfg t hp
    simp [ParamsCfg.Alter, hp]
  · intro env cfg pCfg opts hp hh hv hs
    have := urlLoop_empty_params env
      ((if 0 < cfg.Method.length then [ReqOption.withMethod cfg.Method] else []) ++
        (if 0 < cfg.Data.length then [ReqOption.withData (String.intercalate "&" cfg.Data)] else []) ++
        opts)
      pCfg hp hs cfg.URLS 0 [] hv
    simpa [createFromConfig, hh] using this

/-- Witness for C2: the identity on a concrete template under the
zero-valued parameter configuration, and a concrete two-URL inline run that
persists exactly two templates and succeeds. -/
theorem alter_empty_identity_one_template_per_url_witness :
    ParamsCfg.Alter demoEnv {} (NewTemplate 7 reqEx) = [NewTemplate 7 reqEx] ∧
    (createFromConfig demoEnv cfgTwoUrls {}).stored.length = cfgTwoUrls.URLS.length ∧
    (createFromConfig demoEnv cfgTwoUrls {}).err = none :=
  ⟨alter_empty_identity_one_template_per_url.1 demoEnv {} (NewTemplate 7 reqEx) rfl,
   alter_empty_identity_one_template_per_url.2 demoEnv cfgTwoUrls {} [] rfl rfl
     (by intro u hu; fin_cases hu <;> rfl) (fun _ => rfl)⟩

/-- C3: in the inline-config path, a configuration containing a header
override string with no colon fails with the invalid-header error before
any template is persisted, regardless of the URL list. -/
theorem invalid_header_aborts_inline_path (env : Env) (cfg : Config) (pCfg : ParamsCfg)
    (h : String) (hmem : h ∈ cfg.Headers) (hnc : ':' ∉ h.toList) :
    (createFromConfig env cfg pCfg).stored = [] ∧
    ∃ h2, ':' ∉ h2.toList ∧
      (createFromConfig env cfg pCfg).err = some (.invalidHeader h2) := by
  obtain ⟨h2, herr, hnc2⟩ := buildHeaderOptions_err cfg.Headers ⟨h, hmem, hnc⟩
  refine ⟨?_, h2, hnc2, ?_⟩ <;> simp [createFromConfig, herr]

/-- Witness for C3: the configuration with header override `X-Test` and a
valid URL aborts with `ErrInvalidHeader` on `X-Test` and persists
nothing. -/
theorem invalid_header_aborts_inline_path_witness :
    (createFromConfig demoEnv cfgBadHeader {}).stored = [] ∧
    (∃ h2, ':' ∉ h2.toList ∧
      (createFromConfig demoEnv cfgBadHeader {}).err = some (.invalidHeader h2)) ∧
    (createFromConfig demoEnv cfgBadHeader {}).err = some (.invalidHeader "X-Test") :=
  ⟨(invalid_header_aborts_inline_path demoEnv cfgBadHeader {} "X-Test" (by decide) (by decide)).1,
   (invalid_header_aborts_inline_path demoEnv cfgBadHeader {} "X-Test" (by decide) (by decide)).2,
   rfl⟩

/-- C4: with a readable URLs file, every line failing URL validation is
excluded, every passing line is appended to the inline-config URL list in
order, the run does not abort because of invalid lines, and processing
falls through to the inline-config path. -/
theorem urls_file_merge_lenient (env : Env) (cfg : Config) (pCfg : ParamsCfg) (ls : List String)
    (h1 : cfg.RequestsFile.length = 0) (h2 : cfg.RawRequests.length = 0)
    (h3 : 0 < cfg.UrlsFile.length)
    (h4 : env.openFile cfg.UrlsFile = .ok (ls, none)) :
    createTemplates env cfg pCfg =
      createFromConfig env
        { cfg with URLS := cfg.URLS ++ ls.filter fun l => (env.validate l).isNone } pCfg := by
  simp [createTemplates, h1, h2, h3, updateConfigWithURLS, h4]

/-- Witness for C4: a URLs file holding one valid and one invalid line, on
top of one inline URL, carries exactly the two surviving URLs into the
inline-config path, which persists two templates and succeeds. -/
theorem urls_file_merge_lenient_witness :
    createTemplates demoEnv cfgUrlsOnly {} =
      createFromConfig demoEnv
        { cfgUrlsOnly with
          URLS := cfgUrlsOnly.URLS ++
            (["http://good", "bad"].filter fun l => (demoEnv.validate l).isNone) } {} ∧
    (createTemplates demoEnv cfgUrlsOnly {}).stored.length = 2 ∧
    (createTemplates demoEnv cfgUrlsOnly {}).err = none :=
  ⟨urls_file_merge_lenient demoEnv cfgUrlsOnly {} ["http://good", "bad"]
      (by decide) (by decide) (by decide) rfl,
   by decide, by decide⟩

theorem createFromConfig_ignores_paramsFile (env : Env) (cfg : Config) (pCfg : ParamsCfg)
    (x : String) :
    createFromConfig env { cfg with ParamsFile := x } pCfg = createFromConfig env cfg pCfg := by
  simp [createFromConfig]

theorem createFromConfig_fields (env : Env) (c1 c2 : Config) (pCfg : ParamsCfg)
    (hm : c1.Method = c2.Method) (hd : c1.Data = c2.Data)
    (hh : c1.Headers = c2.Headers) (hu : c1.URLS = c2.URLS) :
    createFromConfig env c1 pCfg = createFromConfig env c2 pCfg := by
  simp [createFromConfig, hm, hd, hh, hu]

theorem createTemplates_ignores_paramsFile (env : Env) (cfg : Config) (pCfg : ParamsCfg)
    (x : String) :
    createTemplates env { cfg with ParamsFile := x } pCfg = createTemplates env cfg pCfg := by
  by_cases hR : 0 < cfg.RequestsFile.length
  · simp [createTemplates, hR]
  · by_cases hW : 0 < cfg.RawRequests.length
    · simp [createTemplates, hR, hW]
    · by_cases hU : 0 < cfg.UrlsFile.length
      · simp only [createTemplates, hR, hW, hU, if_true, if_false, updateConfigWithURLS]
        cases env.openFile cfg.UrlsFile with
        | error e => rfl
        | ok p =>
          obtain ⟨ls, scanErr⟩ := p
          cases scanErr with
          | none => exact createFromConfig_fields env _ _ pCfg rfl rfl rfl rfl
          | some m => rfl
      · simp only [createTemplates, hR, hW, hU, if_false]
        exact createFromConfig_fields env _ _ pCfg rfl rfl rfl rfl

/-- C5: when a parameter-file path is set and reading it fails, template
preparation proceeds exactly as it would with no parameter splitting
configured — the run equals both the run with the zero-valued parameter
configuration and the run of the same configuration without a parameter
file — and the read failure is never returned to the caller. -/
theorem params_file_read_failure_nonfatal (env : Env) (cfg : Config) (m : String)
    (h1 : 0 < cfg.ParamsFile.length)
    (h2 : env.readFile cfg.ParamsFile = .error m) :
    PrepareTemplates env cfg = createTemplates env cfg {} ∧
    PrepareTemplates env cfg = PrepareTemplates env { cfg with ParamsFile := "" } := by
  have hfail : readParamsFile env cfg.ParamsFile = .error m := by
    simp [readParamsFile, h2]
  have hbase : PrepareTemplates env cfg = createTemplates env cfg {} := by
    simp [PrepareTemplates, h1, hfail]
  refine ⟨hbase, hbase.trans ?_⟩
  have : PrepareTemplates env { cfg with ParamsFile := "" } =
      createTemplates env { cfg with ParamsFile := "" } {} := by
    simp [PrepareTemplates]
  rw [this]
  exact (createTemplates_ignores_paramsFile env cfg {} "").symm

/-- Witness for C5: with a parameter file that cannot be read, the concrete
run equals the run with no parameter splitting configured, succeeds, and
reports no error. -/
theorem params_file_read_failure_nonfatal_witness :
    (PrepareTemplates demoEnv cfgBadParams = createTemplates demoEnv cfgBadParams {} ∧
      PrepareTemplates demoEnv cfgBadParams =
        PrepareTemplates demoEnv { cfgBadParams with ParamsFile := "" }) ∧
    (PrepareTemplates demoEnv cfgBadParams).err = none :=
  ⟨params_file_read_failure_nonfatal demoEnv cfgBadParams "no such file" (by decide) rfl,
   by decide⟩

/-- C6: for every request, the query extractor for a sub-kind returns the
concatenation, in finder order, of the byte payloads of exactly the query
insertion points whose sub-kind matches; on query string `a=1&b=2&a=3` the
name extraction yields `aba` (duplicate key preserved) and the value
extraction yields `123`; with no matching insertion points the buffer is
empty. -/
theorem query_extractor_concat_by_subkind :
    (∀ (r : Request) (ipt : InsertionPointType),
      reqQueryBytes r ipt =
        ((queryFinderFind r).filter fun e => decide (e.ipt = ipt)).flatMap
          fun e => e.value.toList) ∧
    reqQueryNameBytes reqEx = "aba".toList ∧
    reqQueryValueBytes reqEx = "123".toList ∧
    (∀ (r : Request) (ipt : InsertionPointType),
      ((queryFinderFind r).filter fun e => decide (e.ipt = ipt)) = [] →
      reqQueryBytes r ipt = []) := by
  have hmain : ∀ (r : Request) (ipt : InsertionPointType),
      reqQueryBytes r ipt =
        ((queryFinderFind r).filter fun e => decide (e.ipt = ipt)).flatMap
          fun e => e.value.toList := by
    intro r ipt
    simpa using foldl_extract ipt (queryFinderFind r) []
  refine ⟨hmain, by decide, by decide, fun r ipt h => ?_⟩
  rw [hmain r ipt, h]
  rfl

/-- Witness for C6: the general contract instantiated on the `a=1&b=2&a=3`
request for the value sub-kind, and the empty-buffer clause instantiated on
a request with no query string. -/
theorem query_extractor_concat_by_subkind_witness :
    reqQueryBytes reqEx InsertionPointType.paramURLValue =
      ((queryFinderFind reqEx).filter
          fun e => decide (e.ipt = InsertionPointType.paramURLValue)).flatMap
        (fun e => e.value.toList) ∧
    reqQueryBytes reqNoQuery InsertionPointType.paramURLName = [] :=
  ⟨query_extractor_concat_by_subkind.1 reqEx InsertionPointType.paramURLValue,
   query_extractor_concat_by_subkind.2.2.2 reqNoQuery InsertionPointType.paramURLName (by decide)⟩

/-- C7: in a run driven by multiple raw-request files in which every file
is readable, parseable and storable, the indices of the persisted templates
are exactly `0, 1, 2, …` in store order — strictly increasing with no
gaps, continuing across file boundaries — and the run succeeds. -/
theorem raw_files_indices_dense_increasing (env : Env) (pCfg : ParamsCfg) (paths : List String)
    (hio : ∀ p ∈ paths, ∃ bs, env.readFile p = .ok bs ∧ ∃ r, env.parseRaw bs = .ok r)
    (hs : ∀ t, env.storeErr t = none) :
    (createFromRawRequestFiles env paths pCfg).err = none ∧
    (createFromRawRequestFiles env paths pCfg).stored.map Template.idx =
      List.range (createFromRawRequestFiles env paths pCfg).stored.length := by
  have := rawFilesLoop_ok env pCfg hs paths [] hio (by simp)
  simpa [createFromRawRequestFiles] using this

/-- Witness for C7: a concrete two-file raw-request run persists two
templates whose indices are exactly `[0, 1]`. -/
theorem raw_files_indices_dense_increasing_witness :
    (createFromRawRequestFiles demoEnv ["raw1.txt", "raw2.txt"] {}).err = none ∧
    (createFromRawRequestFiles demoEnv ["raw1.txt", "raw2.txt"] {}).stored.map Template.idx =
      List.range (createFromRawRequestFiles demoEnv ["raw1.txt", "raw2.txt"] {}).stored.length ∧
    (createFromRawRequestFiles demoEnv ["raw1.txt", "raw2.txt"] {}).stored.map Template.idx =
      [0, 1] := by
  have h := raw_files_indices_dense_increasing demoEnv {} ["raw1.txt", "raw2.txt"]
    (by
      intro p hp
      fin_cases hp
      · exact ⟨["GET / HTTP/1.1"], rfl, _, rfl⟩
      · exact ⟨["POST / HTTP/1.1"], rfl, _, rfl⟩)
    (fun _ => rfl)
  exact ⟨h.1, h.2, by decide⟩

/-- C8 (divergence witness): when opening the URLs file fails with an
`*os.PathError` the returned error wraps `ErrProcessUrlsFile`, the
underlying failure and the URLs-file path; but when the failure is not an
`*os.PathError`, the source embeds `cfg.OutPath` — here `out.json` — in
place of the URLs-file path `urls.txt`. -/
theorem urls_file_open_error_uses_outpath :
    updateConfigWithURLS envPathErr cfgUrlsErr =
      .error (.processUrlsFile "urls.txt" "no such file or directory") ∧
    updateConfigWithURLS envOtherErr cfgUrlsErr =
      .error (.processUrlsFile "out.json" "token expired") ∧
    createTemplates envOtherErr cfgUrlsErr {} =
      { stored := [], err := some (.processUrlsFile "out.json" "token expired") } ∧
    cfgUrlsErr.UrlsFile = "urls.txt" ∧ cfgUrlsErr.OutPath = "out.json" ∧
    ("out.json" : String) ≠ "urls.txt" :=
  ⟨rfl, rfl, rfl, rfl, rfl, by decide⟩

/-- C9: the parameter list returned by the reader contains exactly one
entry per line of the file, equal to that line's whitespace-trimmed text,
in file order with duplicates preserved (so blank lines contribute
empty-string parameters). -/
theorem readParamsFile_one_entry_per_line (env : Env) (p : String) (ls : List String)
    (h : env.readFile p = .ok ls) :
    readParamsFile env p = .ok (ls.map trimChars) ∧
    (ls.map trimChars).length = ls.length := by
  refine ⟨?_, List.length_map ls trimChars⟩
  simp [readParamsFile, h, paramsLoop_eq]

/-- Witness for C9: a four-line file with a blank line, a padded line and a
duplicate yields exactly the four trimmed entries, the blank line
contributing an empty-string parameter and the duplicate preserved. -/
theorem readParamsFile_one_entry_per_line_witness :
    readParamsFile demoEnv "params.txt" = .ok (["a", "", "  b  ", "a"].map trimChars) ∧
    ["a", "", "  b  ", "a"].map trimChars = ["a", "", "b", "a"] :=
  ⟨(readParamsFile_one_entry_per_line demoEnv "params.txt" ["a", "", "  b  ", "a"] rfl).1,
   by decide⟩

/-- C10: persistence in the inline-config path is not atomic across URLs —
when the URL list is valid URLs followed by an invalid one, the run aborts
with the validation error of the invalid URL, yet the store trace equals
that of the run over the valid URLs alone: everything already stored
remains persisted, with no rollback. -/
theorem inline_path_no_rollback_on_invalid_url (env : Env) (cfg : Config) (pCfg : ParamsCfg)
    (opts : List ReqOption) (us vs : List String) (u m : String)
    (hurls : cfg.URLS = us ++ u :: vs)
    (hh : buildHeaderOptions cfg.Headers = .ok opts)
    (hok : ∀ x ∈ us, env.validate x = none)
    (hbad : env.validate u = some m)
    (hs : ∀ t, env.storeErr t = none) :
    createFromConfig env cfg pCfg =
      { stored := (createFromConfig env { cfg with URLS := us } pCfg).stored,
        err := some (.external m) } := by
  simp only [createFromConfig, hh, hurls]
  exact urlLoop_invalid_tail env _ pCfg u m vs hbad hs us 0 [] hok

/-- Witness for C10: the three-URL run `http://a`, `http://b`, `bad` aborts
on `bad` but keeps both templates stored for the two valid URLs — the same
two templates the truncated two-URL run stores. -/
theorem inline_path_no_rollback_on_invalid_url_witness :
    createFromConfig demoEnv cfgTwoThenBad {} =
      { stored := (createFromConfig demoEnv { cfgTwoThenBad with URLS := ["http://a", "http://b"] } {}).stored,
        err := some (.external "invalid url") } ∧
    (createFromConfig demoEnv { cfgTwoThenBad with URLS := ["http://a", "http://b"] } {}).stored.length = 2 :=
  ⟨inline_path_no_rollback_on_invalid_url demoEnv cfgTwoThenBad {} [] ["http://a", "http://b"] []
      "bad" "invalid url" rfl rfl (by intro x hx; fin_cases hx <;> rfl) rfl (fun _ => rfl),
   by decide⟩
